import Mathlib

/-!
Verification of the deduplication engine of the funding-rounds pipeline
(`src/deduplicator_v2.py` and the parts of `src/database/db_manager.py` it
uses).  Python code is embedded shallowly: ORM rows become structures,
floats become rationals, the mutable session becomes an explicit `DB`
state threaded through the functions.
-/

namespace FundingRounds

/-- A parsed calendar date (proleptic Gregorian), as produced by
`datetime.strptime`: year, month, day.  Formats that omit month or day
default them to 1, as `strptime` does. -/
structure Date where
  year : Nat
  month : Nat
  day : Nat
deriving DecidableEq, Repr

/-- Gregorian leap-year rule (as used by Python `datetime`). -/
def isLeap (y : Nat) : Bool :=
  (y % 4 == 0 && y % 100 != 0) || y % 400 == 0

/-- Number of days in a month, matching `calendar`/`datetime`. -/
def daysInMonth (y m : Nat) : Nat :=
  if m = 2 then (if isLeap y then 29 else 28)
  else if m = 4 ∨ m = 6 ∨ m = 9 ∨ m = 11 then 30
  else 31

/-- Days in all years strictly before year `y` (year 1 is the first year),
the standard proleptic-Gregorian ordinal formula used by
`datetime.toordinal`. -/
def daysBeforeYear (y : Nat) : Nat :=
  let py := y - 1
  py * 365 + py / 4 - py / 100 + py / 400

/-- Days in months of year `y` strictly before month `m`. -/
def daysBeforeMonth (y m : Nat) : Nat :=
  (List.range (m - 1)).foldl (fun acc i => acc + daysInMonth y (i + 1)) 0

/-- Ordinal day number of a date, so day differences computed by
`(dt1 - dt2).days` are differences of ordinals. -/
def toOrdinal (d : Date) : Nat :=
  daysBeforeYear d.year + daysBeforeMonth d.year d.month + d.day

/-- `datetime` constructor validation: year at least `MINYEAR` (1), month
in range, day in range for the month.  (Four-digit years never exceed
`MAXYEAR` 9999.) -/
def mkDate (y m d : Nat) : Option Date :=
  if 1 ≤ y ∧ 1 ≤ m ∧ m ≤ 12 ∧ 1 ≤ d ∧ d ≤ daysInMonth y m then
    some ⟨y, m, d⟩
  else
    none

/-- Digit value of a character, `none` for non-digits. -/
def digitVal (c : Char) : Option Nat :=
  if c.isDigit then some (c.toNat - 48) else none

/-- `strptime` directive `%Y`: exactly four digits (CPython regex
`\d\d\d\d`). -/
def pYear : List Char → Option (Nat × List Char)
  | a :: b :: c :: d :: rest =>
    if a.isDigit && b.isDigit && c.isDigit && d.isDigit then
      some ((a.toNat - 48) * 1000 + (b.toNat - 48) * 100 +
            (c.toNat - 48) * 10 + (d.toNat - 48), rest)
    else none
  | _ => none

/-- `strptime` directive `%m`: CPython regex `1[0-2]|0[1-9]|[1-9]`,
alternatives tried in order. -/
def pMonth : List Char → Option (Nat × List Char)
  | '1' :: c :: rest =>
    if c == '0' || c == '1' || c == '2' then some (10 + (c.toNat - 48), rest)
    else some (1, c :: rest)
  | '0' :: c :: rest =>
    if '1' ≤ c && c ≤ '9' then some (c.toNat - 48, rest) else none
  | c :: rest =>
    if '1' ≤ c && c ≤ '9' then some (c.toNat - 48, rest) else none
  | [] => none

/-- `strptime` directive `%d`: CPython regex
`3[01]|[12]\d|0[1-9]|[1-9]`, alternatives tried in order. -/
def pDay : List Char → Option (Nat × List Char)
  | '3' :: c :: rest =>
    if c == '0' || c == '1' then some (30 + (c.toNat - 48), rest)
    else some (3, c :: rest)
  | '1' :: c :: rest =>
    if c.isDigit then some (10 + (c.toNat - 48), rest) else some (1, c :: rest)
  | '2' :: c :: rest =>
    if c.isDigit then some (20 + (c.toNat - 48), rest) else some (2, c :: rest)
  | '0' :: c :: rest =>
    if '1' ≤ c && c ≤ '9' then some (c.toNat - 48, rest) else none
  | c :: rest =>
    if '1' ≤ c && c ≤ '9' then some (c.toNat - 48, rest) else none
  | [] => none

/-- Match one literal character of the format string. -/
def pLit (ch : Char) : List Char → Option (List Char)
  | c :: rest => if c == ch then some rest else none
  | [] => none

/-- Format `%Y-%m-%d`; the whole input must be consumed
(`strptime` raises "unconverted data remains" otherwise). -/
def fmtYMD (s : List Char) : Option Date := do
  let (y, r1) ← pYear s
  let r2 ← pLit '-' r1
  let (m, r3) ← pMonth r2
  let r4 ← pLit '-' r3
  let (d, r5) ← pDay r4
  if r5 = [] then mkDate y m d else none

/-- Format `%Y-%m`. -/
def fmtYM (s : List Char) : Option Date := do
  let (y, r1) ← pYear s
  let r2 ← pLit '-' r1
  let (m, r3) ← pMonth r2
  if r3 = [] then mkDate y m 1 else none

/-- Format `%Y`. -/
def fmtY (s : List Char) : Option Date := do
  let (y, r1) ← pYear s
  if r1 = [] then mkDate y 1 1 else none

/-- Format `%m/%d/%Y`. -/
def fmtMDY (s : List Char) : Option Date := do
  let (m, r1) ← pMonth s
  let r2 ← pLit '/' r1
  let (d, r3) ← pDay r2
  let r4 ← pLit '/' r3
  let (y, r5) ← pYear r4
  if r5 = [] then mkDate y m d else none

/-- Format `%d/%m/%Y`. -/
def fmtDMY (s : List Char) : Option Date := do
  let (d, r1) ← pDay s
  let r2 ← pLit '/' r1
  let (m, r3) ← pMonth r2
  let r4 ← pLit '/' r3
  let (y, r5) ← pYear r4
  if r5 = [] then mkDate y m d else none

/-- `DeduplicatorV2.parse_date`: `None`/empty is unparseable; otherwise the
five formats are tried in order and the first success wins. -/
def parse_date (date_str : Option String) : Option Date :=
  match date_str with
  | none => none
  | some s =>
    if s = "" then none
    else
      let cs := s.toList
      ((((fmtYMD cs).orElse (fun _ => fmtYM cs)).orElse
          (fun _ => fmtY cs)).orElse
          (fun _ => fmtMDY cs)).orElse
          (fun _ => fmtDMY cs)

/-- Configuration state of `DeduplicatorV2.__init__`: the two thresholds
and the reserved fuzzy-matching flag read from the config dict. -/
structure DeduplicatorV2 where
  date_proximity_days : Nat
  amount_similarity_threshold : ℚ
  enable_fuzzy_matching : Bool
deriving DecidableEq, Repr

/-- Deduplicator built from an empty config: all defaults
(90 days, 0.10, fuzzy flag on). -/
def defaultDedup : DeduplicatorV2 := ⟨90, 1/10, true⟩

/-- `DeduplicatorV2.dates_are_close`. -/
def dates_are_close (dd : DeduplicatorV2) (date1 date2 : Option String) : Bool :=
  match parse_date date1, parse_date date2 with
  | some dt1, some dt2 =>
    Nat.dist (toOrdinal dt1) (toOrdinal dt2) ≤ dd.date_proximity_days
  | _, _ => false

/-- `DeduplicatorV2.amounts_are_similar`; Python float arithmetic is
modelled over ℚ, and `not amount` (falsy) is `none` or `0`. -/
def amounts_are_similar (dd : DeduplicatorV2) (amount1 amount2 : Option ℚ) : Bool :=
  match amount1, amount2 with
  | some a1, some a2 =>
    if a1 = 0 ∨ a2 = 0 then false
    else
      let larger := max a1 a2
      let smaller := min a1 a2
      if larger = 0 then smaller = 0
      else |larger - smaller| / larger ≤ dd.amount_similarity_threshold
  | _, _ => false

/-- `str.lower` on one character (ASCII model of Python lowercasing). -/
def lowerChar (c : Char) : Char :=
  if 'A' ≤ c ∧ c ≤ 'Z' then Char.ofNat (c.toNat + 32) else c

/-- The whitespace characters removed by `str.strip()` (ASCII model). -/
def pyWS (c : Char) : Bool :=
  c == ' ' || c == '\t' || c == '\n' || c == '\r' ||
    c.toNat == 11 || c.toNat == 12

/-- `str.strip()`: drop whitespace from both ends. -/
def stripL (l : List Char) : List Char :=
  ((l.dropWhile pyWS).reverse.dropWhile pyWS).reverse

/-- `str.lower().strip()` normalisation applied to round names, as a
character list. -/
def normName (s : String) : List Char := stripL (s.toList.map lowerChar)

/-- `needle.isPrefixOf haystack` over character lists. -/
def hasPre : List Char → List Char → Bool
  | [], _ => true
  | _ :: _, [] => false
  | a :: as, b :: bs => a == b && hasPre as bs

/-- Python substring test `needle in haystack` over character lists. -/
def hasSub (needle : List Char) : List Char → Bool
  | [] => hasPre needle []
  | b :: bs => hasPre needle (b :: bs) || hasSub needle bs

/-- The fixed series-keyword vocabulary of `round_names_match`. -/
def series_keywords : List String :=
  ["seed", "series a", "series b", "series c", "series d",
   "series e", "series f", "series g", "series h"]

/-- `DeduplicatorV2.round_names_match`. -/
def round_names_match (name1 name2 : Option String) : Bool :=
  match name1, name2 with
  | some n1, some n2 =>
    if n1 = "" ∨ n2 = "" then false
    else
      let n1_norm := normName n1
      let n2_norm := normName n2
      if n1_norm = n2_norm then true
      else
        series_keywords.any (fun kw =>
          hasSub kw.toList n1_norm && hasSub kw.toList n2_norm)
  | _, _ => false

/-- A `FundingRound` row, restricted to the columns the deduplicator
reads or writes.  Floats become ℚ, nullable columns become `Option`. -/
structure FundingRound where
  id : Nat
  company_id : Nat
  round_name : Option String
  date : Option String
  amount_raised_usd : Option ℚ
  pre_money_valuation_usd : Option ℚ
  post_money_valuation_usd : Option ℚ
  lead_investor : Option String
  confidence_score : String
  is_duplicate : Bool
  duplicate_of_id : Option Nat
deriving DecidableEq, Repr

/-- `DeduplicatorV2.are_duplicates`. -/
def are_duplicates (dd : DeduplicatorV2) (round1 round2 : FundingRound) : Bool :=
  if round1.company_id ≠ round2.company_id then false
  else if dates_are_close dd round1.date round2.date then
    amounts_are_similar dd round1.amount_raised_usd round2.amount_raised_usd ||
      round_names_match round1.round_name round2.round_name
  else false

/-- Python truthiness of an optional amount (`bool(x)`). -/
def truthyAmt (a : Option ℚ) : Bool :=
  match a with
  | none => false
  | some x => x ≠ 0

/-- Python truthiness of an optional string (`bool(s)`). -/
def truthyStr (s : Option String) : Bool :=
  match s with
  | none => false
  | some x => x ≠ ""

/-- The completeness score computed inside `deduplicate_company`: number
of truthy fields among amount, pre-money, post-money, lead investor. -/
def completeness (r : FundingRound) : Nat :=
  (if truthyAmt r.amount_raised_usd then 1 else 0) +
  (if truthyAmt r.pre_money_valuation_usd then 1 else 0) +
  (if truthyAmt r.post_money_valuation_usd then 1 else 0) +
  (if truthyStr r.lead_investor then 1 else 0)

/-- `DatabaseManager.mark_as_duplicate`: look the row up by primary key;
if present, set `is_duplicate` and `duplicate_of_id`; if absent do
nothing. -/
def mark_as_duplicate (rounds : List FundingRound)
    (duplicate_round_id original_round_id : Nat) : List FundingRound :=
  rounds.map (fun r =>
    if r.id = duplicate_round_id then
      { r with is_duplicate := true, duplicate_of_id := some original_round_id }
    else r)

/-- Body of the inner pair loop of `deduplicate_company`: decide whether
the pair is a duplicate and, if so, demote the loser of the merge rule.
Returns the updated table and the increment of `duplicates_found`. -/
def pairStep (dd : DeduplicatorV2) (round1 round2 : FundingRound)
    (rounds : List FundingRound) : List FundingRound × Nat :=
  if are_duplicates dd round1 round2 then
    if round1.confidence_score = "HIGH" ∧ round2.confidence_score ≠ "HIGH" then
      (mark_as_duplicate rounds round2.id round1.id, 1)
    else if round2.confidence_score = "HIGH" ∧ round1.confidence_score ≠ "HIGH" then
      (mark_as_duplicate rounds round1.id round2.id, 1)
    else if completeness round1 ≥ completeness round2 then
      (mark_as_duplicate rounds round2.id round1.id, 1)
    else
      (mark_as_duplicate rounds round1.id round2.id, 1)
  else (rounds, 0)

/-- All ordered pairs `(l[i], l[j])` with `i < j`, in the iteration order
of the double loop of `deduplicate_company`. -/
def pairsOf {α : Type} : List α → List (α × α)
  | [] => []
  | x :: xs => xs.map (fun y => (x, y)) ++ pairsOf xs

/-- Run the pair loop over a list of pairs, threading the table and the
`duplicates_found` accumulator. -/
def runPairs (dd : DeduplicatorV2) :
    List (FundingRound × FundingRound) → List FundingRound → Nat →
    List FundingRound × Nat
  | [], rounds, acc => (rounds, acc)
  | (r1, r2) :: rest, rounds, acc =>
    let step := pairStep dd r1 r2 rounds
    runPairs dd rest step.1 (acc + step.2)

/-- Database state the deduplicator touches: the funding-round table,
the set of companies whose stage-4 flag is set, and the per-company
`stage4_unique_rounds` counters. -/
structure DB where
  rounds : List FundingRound
  merged : List Nat
  uniqueCounts : List (Nat × Nat)
deriving DecidableEq, Repr

/-- Association-list update used for the `stage4_unique_rounds` counter. -/
def setCount (cid n : Nat) : List (Nat × Nat) → List (Nat × Nat)
  | [] => [(cid, n)]
  | (c, m) :: rest =>
    if c = cid then (c, n) :: rest else (c, m) :: setCount cid n rest

/-- `DatabaseManager.update_stage4_status` with `completed=True`: set the
stage-4 flag and record the unique-round count. -/
def update_stage4_status (db : DB) (cid n : Nat) : DB :=
  { db with
    merged := if db.merged.contains cid then db.merged else cid :: db.merged,
    uniqueCounts := setCount cid n db.uniqueCounts }

/-- `status.stage4_merged` as read through `get_processing_status`
(a freshly created status record has the flag unset). -/
def getStage4 (db : DB) (cid : Nat) : Bool := db.merged.contains cid

/-- `DeduplicatorV2.deduplicate_company` for the company with id `cid`:
returns `duplicates_found` and the updated database state. -/
def deduplicate_company (dd : DeduplicatorV2) (db : DB) (cid : Nat) : Nat × DB :=
  if getStage4 db cid then (0, db)
  else
    let rounds := db.rounds.filter (fun r => r.company_id = cid && !r.is_duplicate)
    if rounds.length ≤ 1 then
      (0, update_stage4_status db cid rounds.length)
    else
      let run := runPairs dd (pairsOf rounds) db.rounds 0
      let unique := (run.1.filter (fun r => r.company_id = cid && !r.is_duplicate)).length
      (run.2, update_stage4_status { db with rounds := run.1 } cid unique)

/-- First-occurrence deduplication of a list, modelling
`query(FundingRound.company_id).distinct()`. -/
def distinctAux (seen : List Nat) : List Nat → List Nat
  | [] => []
  | x :: xs =>
    if seen.contains x then distinctAux seen xs
    else x :: distinctAux (x :: seen) xs

/-- The distinct company ids appearing in the round table, in first
appearance order. -/
def distinctL (l : List Nat) : List Nat := distinctAux [] l

/-- The statistics dict returned by `deduplicate_all`. -/
structure Stats where
  total_companies : Nat
  total_rounds : Nat
  unique_rounds : Nat
  duplicates_removed : Nat
  deduplication_rate : ℚ
deriving DecidableEq, Repr

/-- The per-company loop of `deduplicate_all`, accumulating
`total_duplicates` while threading the database. -/
def dedupLoop (dd : DeduplicatorV2) :
    List Nat → Nat → DB → Nat × DB
  | [], acc, db => (acc, db)
  | cid :: rest, acc, db =>
    let step := deduplicate_company dd db cid
    dedupLoop dd rest (acc + step.1) step.2

/-- `DeduplicatorV2.deduplicate_all`: deduplicate every distinct company
owning a round, then compute the statistics dict.  Note the rate is a
percentage (`* 100`) in the source. -/
def deduplicate_all (dd : DeduplicatorV2) (db : DB) : Stats × DB :=
  let companies := distinctL (db.rounds.map (fun r => r.company_id))
  let loop := dedupLoop dd companies 0 db
  let total_rounds := loop.2.rounds.length
  let unique_rounds := (loop.2.rounds.filter (fun r => !r.is_duplicate)).length
  ({ total_companies := companies.length,
     total_rounds := total_rounds,
     unique_rounds := unique_rounds,
     duplicates_removed := loop.1,
     deduplication_rate :=
       if total_rounds > 0 then (loop.1 : ℚ) / (total_rounds : ℚ) * 100 else 0 },
   loop.2)

/-- The per-company duplicate counts of a sequence of
`deduplicate_company` calls, threading the database between calls. -/
def perCompanyCounts (dd : DeduplicatorV2) : DB → List Nat → List Nat × DB
  | db, [] => ([], db)
  | db, cid :: rest =>
    let step := deduplicate_company dd db cid
    let tail := perCompanyCounts dd step.2 rest
    (step.1 :: tail.1, tail.2)

/-- A funding round with every optional field empty, used as a base for
concrete test rows. -/
def blankRound : FundingRound :=
  { id := 0, company_id := 0, round_name := none, date := none,
    amount_raised_usd := none, pre_money_valuation_usd := none,
    post_money_valuation_usd := none, lead_investor := none,
    confidence_score := "MEDIUM", is_duplicate := false,
    duplicate_of_id := none }

/-- Chain scenario: three rounds of company 1 where (r1,r2) and (r1,r3)
are duplicate pairs but (r2,r3) is not (dates 180 days apart), and r3
has HIGH confidence. -/
def chainDB : DB :=
  { rounds :=
      [{ blankRound with
           id := 1, company_id := 1,
           round_name := some "Series A", date := some "2021-04-01" },
       { blankRound with
           id := 2, company_id := 1,
           round_name := some "Series A", date := some "2021-01-01" },
       { blankRound with
           id := 3, company_id := 1,
           round_name := some "Series A", date := some "2021-06-30",
           confidence_score := "HIGH" }],
    merged := [], uniqueCounts := [] }

/-- Three-way cluster scenario of §8.11: three mutually-duplicate rounds
of equal confidence with completeness scores 2, 3, 1 in load order. -/
def gammaDB : DB :=
  { rounds :=
      [{ blankRound with
           id := 1, company_id := 7,
           round_name := some "Series B", date := some "2022-03-01",
           pre_money_valuation_usd := some 40000000,
           lead_investor := some "Fund One" },
       { blankRound with
           id := 2, company_id := 7,
           round_name := some "Series B", date := some "2022-03-05",
           pre_money_valuation_usd := some 40000000,
           post_money_valuation_usd := some 50000000,
           lead_investor := some "Fund Two" },
       { blankRound with
           id := 3, company_id := 7,
           round_name := some "Series B", date := some "2022-03-10",
           pre_money_valuation_usd := some 39000000 }],
    merged := [], uniqueCounts := [] }

/-- End-to-end scenario of §8.9: two duplicate records of company 1, one
HIGH and one MEDIUM confidence. -/
def acmeDB : DB :=
  { rounds :=
      [{ blankRound with
           id := 1, company_id := 1,
           round_name := some "Series A", date := some "2021-05-01",
           amount_raised_usd := some 5000000, confidence_score := "HIGH" },
       { blankRound with
           id := 2, company_id := 1,
           round_name := some "Series A", date := some "2021-05-10",
           amount_raised_usd := some 5100000 }],
    merged := [], uniqueCounts := [] }

/-! ## Spec-side predicates

The following `Prop`-valued predicates transcribe the wording of the
pairwise duplicate predicate, to be compared with the
code-derived boolean functions above. -/

/-- Spec wording: both amounts are non-null and non-zero and
`|larger - smaller| / larger` is at most the threshold. -/
def specAmountsSimilar (θ : ℚ) (a1 a2 : Option ℚ) : Prop :=
  ∃ x y, a1 = some x ∧ a2 = some y ∧ x ≠ 0 ∧ y ≠ 0 ∧
    |max x y - min x y| / max x y ≤ θ

/-- Spec wording: both round labels are non-empty and, after lowercasing
and trimming, are exactly equal or both contain the same series keyword
of the fixed vocabulary. -/
def specNamesMatch (n1 n2 : Option String) : Prop :=
  ∃ s t, n1 = some s ∧ n2 = some t ∧ s ≠ "" ∧ t ≠ "" ∧
    (normName s = normName t ∨
      ∃ kw ∈ series_keywords,
        hasSub kw.toList (normName s) = true ∧
        hasSub kw.toList (normName t) = true)

/-- Spec wording: both date strings parse (under the five accepted
formats) and the absolute day difference is at most the threshold. -/
def specDatesClose (days : Nat) (d1 d2 : Option String) : Prop :=
  ∃ a b, parse_date d1 = some a ∧ parse_date d2 = some b ∧
    Nat.dist (toOrdinal a) (toOrdinal b) ≤ days

/-- The pairwise duplicate predicate as worded in the specification:
same company AND dates close AND (amounts similar OR names match). -/
def are_duplicates_spec (dd : DeduplicatorV2) (r1 r2 : FundingRound) : Prop :=
  r1.company_id = r2.company_id ∧
  specDatesClose dd.date_proximity_days r1.date r2.date ∧
  (specAmountsSimilar dd.amount_similarity_threshold
      r1.amount_raised_usd r2.amount_raised_usd ∨
    specNamesMatch r1.round_name r2.round_name)

lemma amounts_are_similar_iff (dd : DeduplicatorV2) (a1 a2 : Option ℚ) :
    amounts_are_similar dd a1 a2 = true ↔
      specAmountsSimilar dd.amount_similarity_threshold a1 a2 := by
  cases a1 with
  | none => simp [amounts_are_similar, specAmountsSimilar]
  | some x =>
    cases a2 with
    | none => simp [amounts_are_similar, specAmountsSimilar]
    | some y =>
      by_cases hx : x = 0
      · simp [amounts_are_similar, specAmountsSimilar, hx]
      · by_cases hy : y = 0
        · simp [amounts_are_similar, specAmountsSimilar, hx, hy]
        · have hm : max x y ≠ 0 := by
            rcases max_choice x y with h | h <;> rw [h] <;> assumption
          simp [amounts_are_similar, specAmountsSimilar, hx, hy, hm]

lemma round_names_match_iff (n1 n2 : Option String) :
    round_names_match n1 n2 = true ↔ specNamesMatch n1 n2 := by
  cases n1 with
  | none => simp [round_names_match, specNamesMatch]
  | some s =>
    cases n2 with
    | none => simp [round_names_match, specNamesMatch]
    | some t =>
      by_cases hs : s = ""
      · simp [round_names_match, specNamesMatch, hs]
      · by_cases ht : t = ""
        · simp [round_names_match, specNamesMatch, hs, ht]
        · by_cases heq : normName s = normName t
          · simp [round_names_match, specNamesMatch, hs, ht, heq]
          · simp [round_names_match, specNamesMatch, hs, ht, heq,
              List.any_eq_true, Bool.and_eq_true]

lemma dates_are_close_iff (dd : DeduplicatorV2) (d1 d2 : Option String) :
    dates_are_close dd d1 d2 = true ↔
      specDatesClose dd.date_proximity_days d1 d2 := by
  cases h1 : parse_date d1 with
  | none => simp [dates_are_close, specDatesClose, h1]
  | some a =>
    cases h2 : parse_date d2 with
    | none => simp [dates_are_close, specDatesClose, h1, h2]
    | some b => simp [dates_are_close, specDatesClose, h1, h2]

/-- C1: `are_duplicates(A, B)` is true exactly when A and B have the same
owning company, both dates parse with absolute day difference at most
`date_proximity_days`, and either both amounts are non-null/non-zero with
relative difference (against the larger) at most
`amount_similarity_threshold`, or both round labels are non-empty and
normalise to equal strings or share a series keyword. -/
theorem are_duplicates_iff_spec (dd : DeduplicatorV2) (r1 r2 : FundingRound) :
    are_duplicates dd r1 r2 = true ↔ are_duplicates_spec dd r1 r2 := by
  unfold are_duplicates are_duplicates_spec
  by_cases hc : r1.company_id = r2.company_id
  · by_cases hd : dates_are_close dd r1.date r2.date
    · have hd' := (dates_are_close_iff dd r1.date r2.date).mp hd
      simp [hc, hd, hd', ← amounts_are_similar_iff, ← round_names_match_iff]
    · have hd' : ¬ specDatesClose dd.date_proximity_days r1.date r2.date := by
        intro h
        exact hd ((dates_are_close_iff dd r1.date r2.date).mpr h)
      simp [hc, hd, hd']
  · simp [hc]

/-! ## Boundary behaviour (C7) -/

/-- C7: with the default thresholds, two parseable dates exactly 90 days
apart are close and two 91 days apart are not; amounts 1,000,000 and
1,095,000 are similar while 1,000,000 and 1,150,000 are not. -/
theorem boundary_thresholds (d1 d2 d3 d4 : Option String) (a b c e : Date)
    (h1 : parse_date d1 = some a) (h2 : parse_date d2 = some b)
    (h90 : Nat.dist (toOrdinal a) (toOrdinal b) = 90)
    (h3 : parse_date d3 = some c) (h4 : parse_date d4 = some e)
    (h91 : Nat.dist (toOrdinal c) (toOrdinal e) = 91) :
    dates_are_close defaultDedup d1 d2 = true ∧
    dates_are_close defaultDedup d3 d4 = false ∧
    amounts_are_similar defaultDedup (some 1000000) (some 1095000) = true ∧
    amounts_are_similar defaultDedup (some 1000000) (some 1150000) = false := by
  refine ⟨?_, ?_,
    by norm_num [amounts_are_similar, defaultDedup, max_def, min_def],
    by norm_num [amounts_are_similar, defaultDedup, max_def, min_def]⟩
  · simp [dates_are_close, h1, h2, h90, defaultDedup]
  · simp [dates_are_close, h3, h4, h91, defaultDedup]

/-- Witness for C7 at concrete date strings: 2021-01-01 is 90 days from
2021-04-01 and 91 days from 2021-04-02. -/
theorem boundary_thresholds_witness :
    parse_date (some "2021-01-01") = some ⟨2021, 1, 1⟩ ∧
    parse_date (some "2021-04-01") = some ⟨2021, 4, 1⟩ ∧
    parse_date (some "2021-04-02") = some ⟨2021, 4, 2⟩ ∧
    Nat.dist (toOrdinal ⟨2021, 1, 1⟩) (toOrdinal ⟨2021, 4, 1⟩) = 90 ∧
    Nat.dist (toOrdinal ⟨2021, 1, 1⟩) (toOrdinal ⟨2021, 4, 2⟩) = 91 ∧
    (dates_are_close defaultDedup (some "2021-01-01") (some "2021-04-01") = true ∧
     dates_are_close defaultDedup (some "2021-01-01") (some "2021-04-02") = false ∧
     amounts_are_similar defaultDedup (some 1000000) (some 1095000) = true ∧
     amounts_are_similar defaultDedup (some 1000000) (some 1150000) = false) :=
  ⟨by decide, by decide, by decide, by decide, by decide,
   boundary_thresholds (some "2021-01-01") (some "2021-04-01")
     (some "2021-01-01") (some "2021-04-02")
     ⟨2021, 1, 1⟩ ⟨2021, 4, 1⟩ ⟨2021, 1, 1⟩ ⟨2021, 4, 2⟩
     (by decide) (by decide) (by decide) (by decide) (by decide) (by decide)⟩

/-! ## Symmetry (C8) -/

lemma dates_are_close_symm (dd : DeduplicatorV2) (d1 d2 : Option String) :
    dates_are_close dd d1 d2 = dates_are_close dd d2 d1 := by
  unfold dates_are_close
  cases parse_date d1 <;> cases parse_date d2 <;> simp [Nat.dist_comm]

lemma amounts_are_similar_symm (dd : DeduplicatorV2) (a1 a2 : Option ℚ) :
    amounts_are_similar dd a1 a2 = amounts_are_similar dd a2 a1 := by
  unfold amounts_are_similar
  cases a1 with
  | none => cases a2 <;> simp
  | some x =>
    cases a2 with
    | none => simp
    | some y =>
      by_cases hx : x = 0 <;> by_cases hy : y = 0 <;>
        simp [hx, hy, max_comm, min_comm, or_comm]

lemma round_names_match_symm (n1 n2 : Option String) :
    round_names_match n1 n2 = round_names_match n2 n1 := by
  cases n1 with
  | none => cases n2 <;> rfl
  | some s =>
    cases n2 with
    | none => rfl
    | some t =>
      simp only [round_names_match]
      by_cases hs : s = ""
      · rw [if_pos (Or.inl hs), if_pos (Or.inr hs)]
      · by_cases ht : t = ""
        · rw [if_pos (Or.inr ht), if_pos (Or.inl ht)]
        · have h1 : ¬ (s = "" ∨ t = "") := by tauto
          have h2 : ¬ (t = "" ∨ s = "") := by tauto
          rw [if_neg h1, if_neg h2]
          by_cases heq : normName s = normName t
          · rw [if_pos heq, if_pos heq.symm]
          · have heq' : ¬ normName t = normName s := fun h => heq h.symm
            rw [if_neg heq, if_neg heq']
            congr 1
            funext kw
            exact Bool.and_comm _ _

lemma are_duplicates_symm (dd : DeduplicatorV2) (r1 r2 : FundingRound) :
    are_duplicates dd r1 r2 = are_duplicates dd r2 r1 := by
  unfold are_duplicates
  by_cases hc : r1.company_id = r2.company_id
  · simp only
      [if_neg (show ¬ r1.company_id ≠ r2.company_id from fun h => h hc),
       if_neg (show ¬ r2.company_id ≠ r1.company_id from fun h => h hc.symm),
       dates_are_close_symm dd r1.date r2.date,
       amounts_are_similar_symm dd r1.amount_raised_usd r2.amount_raised_usd,
       round_names_match_symm r1.round_name r2.round_name]
  · simp only
      [if_pos (show r1.company_id ≠ r2.company_id from hc),
       if_pos (show r2.company_id ≠ r1.company_id from fun h => hc h.symm)]

/-- C8: for records of the same company, `are_duplicates` is symmetric in
its two arguments. -/
theorem are_duplicates_symmetric (dd : DeduplicatorV2) (r1 r2 : FundingRound)
    (h : r1.company_id = r2.company_id) :
    are_duplicates dd r1 r2 = are_duplicates dd r2 r1 :=
  are_duplicates_symm dd r1 r2

/-- Witness for C8 at the two concrete Acme rounds. -/
theorem are_duplicates_symmetric_witness :
    ((acmeDB.rounds.get ⟨0, by decide⟩).company_id =
        (acmeDB.rounds.get ⟨1, by decide⟩).company_id) ∧
    are_duplicates defaultDedup (acmeDB.rounds.get ⟨0, by decide⟩)
        (acmeDB.rounds.get ⟨1, by decide⟩) =
      are_duplicates defaultDedup (acmeDB.rounds.get ⟨1, by decide⟩)
        (acmeDB.rounds.get ⟨0, by decide⟩) :=
  ⟨by decide,
   are_duplicates_symmetric defaultDedup _ _ (by decide)⟩

/-! ## Missing row is a no-op (C10) -/

/-- C10: `mark_as_duplicate` with a round id that matches no row leaves
the table unchanged. -/
theorem mark_as_duplicate_missing_noop (rounds : List FundingRound)
    (duplicate_round_id original_round_id : Nat)
    (h : ∀ r ∈ rounds, r.id ≠ duplicate_round_id) :
    mark_as_duplicate rounds duplicate_round_id original_round_id = rounds := by
  unfold mark_as_duplicate
  rw [List.map_congr_left, List.map_id]
  intro r hr
  simp [h r hr]

/-- Witness for C10: round id 99 is absent from the Acme table, so
marking it changes nothing. -/
theorem mark_as_duplicate_missing_noop_witness :
    (∀ r ∈ acmeDB.rounds, r.id ≠ 99) ∧
    mark_as_duplicate acmeDB.rounds 99 1 = acmeDB.rounds :=
  ⟨by decide, mark_as_duplicate_missing_noop acmeDB.rounds 99 1 (by decide)⟩

/-! ## Merge rule (C2) -/

/-- The merge rule as worded in the specification, giving
`(survivor, demoted)` for a duplicate pair whose first component was
encountered earlier: a sole HIGH-confidence record survives; otherwise
the higher completeness score survives, ties going to the earlier
record. -/
def specSurvivor (r1 r2 : FundingRound) : FundingRound × FundingRound :=
  if r1.confidence_score = "HIGH" ∧ r2.confidence_score ≠ "HIGH" then (r1, r2)
  else if r2.confidence_score = "HIGH" ∧ r1.confidence_score ≠ "HIGH" then (r2, r1)
  else if completeness r2 > completeness r1 then (r2, r1)
  else (r1, r2)

lemma mark_as_duplicate_mem_eq (rounds : List FundingRound) (lid wid : Nat) :
    ∀ r ∈ mark_as_duplicate rounds lid wid, r.id = lid →
      r.is_duplicate = true ∧ r.duplicate_of_id = some wid := by
  intro r hr hid
  unfold mark_as_duplicate at hr
  rcases List.mem_map.mp hr with ⟨x, hx, rfl⟩
  by_cases h : x.id = lid
  · simp [h]
  · simp only [if_neg h] at hid ⊢
    exact absurd hid h

/-- C2: whenever a pair is judged duplicate, the loop body demotes the
record designated by the merge rule of the spec — the sole HIGH-confidence
record survives, otherwise higher completeness wins with ties to the
earlier record — and demotion sets `is_duplicate` and the reference to
the survivor. -/
theorem merge_rule_spec (dd : DeduplicatorV2) (r1 r2 : FundingRound)
    (rounds : List FundingRound) (h : are_duplicates dd r1 r2 = true) :
    pairStep dd r1 r2 rounds =
      (mark_as_duplicate rounds (specSurvivor r1 r2).2.id
        (specSurvivor r1 r2).1.id, 1) ∧
    ∀ r ∈ (pairStep dd r1 r2 rounds).1, r.id = (specSurvivor r1 r2).2.id →
      r.is_duplicate = true ∧
        r.duplicate_of_id = some (specSurvivor r1 r2).1.id := by
  have hstep : pairStep dd r1 r2 rounds =
      (mark_as_duplicate rounds (specSurvivor r1 r2).2.id
        (specSurvivor r1 r2).1.id, 1) := by
    unfold pairStep specSurvivor
    rw [if_pos h]
    by_cases h1 : r1.confidence_score = "HIGH" ∧ r2.confidence_score ≠ "HIGH"
    · simp [h1]
    · by_cases h2 : r2.confidence_score = "HIGH" ∧ r1.confidence_score ≠ "HIGH"
      · simp [h1, h2]
      · by_cases h3 : completeness r1 ≥ completeness r2
        · have h3' : ¬ completeness r1 < completeness r2 := not_lt.mpr h3
          simp [h1, h2, h3, h3']
        · have h3' : completeness r1 < completeness r2 := not_le.mp h3
          simp [h1, h2, h3, h3']
  refine ⟨hstep, ?_⟩
  rw [hstep]
  exact mark_as_duplicate_mem_eq rounds _ _

/-- Witness for C2 at the first two chain-scenario rounds (both MEDIUM
confidence, equal completeness, so the earlier record survives). -/
theorem merge_rule_spec_witness :
    are_duplicates defaultDedup (chainDB.rounds.get ⟨0, by decide⟩)
        (chainDB.rounds.get ⟨1, by decide⟩) = true ∧
    (pairStep defaultDedup (chainDB.rounds.get ⟨0, by decide⟩)
        (chainDB.rounds.get ⟨1, by decide⟩) chainDB.rounds =
      (mark_as_duplicate chainDB.rounds
        (specSurvivor (chainDB.rounds.get ⟨0, by decide⟩)
          (chainDB.rounds.get ⟨1, by decide⟩)).2.id
        (specSurvivor (chainDB.rounds.get ⟨0, by decide⟩)
          (chainDB.rounds.get ⟨1, by decide⟩)).1.id, 1) ∧
    ∀ r ∈ (pairStep defaultDedup (chainDB.rounds.get ⟨0, by decide⟩)
        (chainDB.rounds.get ⟨1, by decide⟩) chainDB.rounds).1,
      r.id = (specSurvivor (chainDB.rounds.get ⟨0, by decide⟩)
          (chainDB.rounds.get ⟨1, by decide⟩)).2.id →
        r.is_duplicate = true ∧
          r.duplicate_of_id = some (specSurvivor
            (chainDB.rounds.get ⟨0, by decide⟩)
            (chainDB.rounds.get ⟨1, by decide⟩)).1.id) :=
  ⟨by decide, merge_rule_spec defaultDedup _ _ chainDB.rounds (by decide)⟩

/-! ## Idempotence (C3) -/

lemma contains_update (l : List Nat) (cid : Nat) :
    (if l.contains cid then l else cid :: l).contains cid = true := by
  by_cases hc : l.contains cid
  · rw [if_pos hc]
    exact hc
  · rw [if_neg hc]
    simp [List.contains_cons]

lemma dedup_company_sets_flag (dd : DeduplicatorV2) (db : DB) (cid : Nat) :
    getStage4 (deduplicate_company dd db cid).2 cid = true := by
  unfold deduplicate_company
  by_cases h : getStage4 db cid
  · rw [if_pos h]
    exact h
  · rw [if_neg h]
    by_cases h2 :
      (db.rounds.filter (fun r => r.company_id = cid && !r.is_duplicate)).length ≤ 1
    · rw [if_pos h2]
      exact contains_update db.merged cid
    · rw [if_neg h2]
      exact contains_update db.merged cid

/-- C3: a second invocation of `deduplicate_company` immediately after a
first one reports zero duplicates and leaves the database state (hence
the `is_duplicate` and `duplicate_of_id` fields of every round) unchanged: the
stage-4 flag short-circuits the call. -/
theorem dedup_company_idempotent (dd : DeduplicatorV2) (db : DB) (cid : Nat) :
    deduplicate_company dd (deduplicate_company dd db cid).2 cid =
      (0, (deduplicate_company dd db cid).2) := by
  have h := dedup_company_sets_flag dd db cid
  set X := (deduplicate_company dd db cid).2 with hX
  unfold deduplicate_company
  simp [h]

/-! ## The fuzzy-matching flag is dead (C9) -/

lemma are_duplicates_proj (p : Nat) (t : ℚ) (f1 f2 : Bool)
    (r1 r2 : FundingRound) :
    are_duplicates ⟨p, t, f1⟩ r1 r2 = are_duplicates ⟨p, t, f2⟩ r1 r2 := rfl

lemma runPairs_proj (p : Nat) (t : ℚ) (f1 f2 : Bool)
    (ps : List (FundingRound × FundingRound)) :
    ∀ rounds acc,
      runPairs ⟨p, t, f1⟩ ps rounds acc = runPairs ⟨p, t, f2⟩ ps rounds acc := by
  induction ps with
  | nil => intro rounds acc; rfl
  | cons pr rest ih =>
    intro rounds acc
    obtain ⟨r1, r2⟩ := pr
    simp only [runPairs]
    exact ih _ _

lemma deduplicate_company_proj (p : Nat) (t : ℚ) (f1 f2 : Bool)
    (db : DB) (cid : Nat) :
    deduplicate_company ⟨p, t, f1⟩ db cid =
      deduplicate_company ⟨p, t, f2⟩ db cid := by
  unfold deduplicate_company
  simp only [runPairs_proj p t f1 f2]

/-- C9: two configurations that agree on the two thresholds but may
differ on `enable_fuzzy_matching` produce identical `are_duplicates`
verdicts and identical `deduplicate_company` results: the flag is read
at initialisation but never used. -/
theorem fuzzy_flag_noop (d1 d2 : DeduplicatorV2)
    (hp : d1.date_proximity_days = d2.date_proximity_days)
    (ht : d1.amount_similarity_threshold = d2.amount_similarity_threshold)
    (r1 r2 : FundingRound) (db : DB) (cid : Nat) :
    are_duplicates d1 r1 r2 = are_duplicates d2 r1 r2 ∧
    deduplicate_company d1 db cid = deduplicate_company d2 db cid := by
  obtain ⟨p1, t1, f1⟩ := d1
  obtain ⟨p2, t2, f2⟩ := d2
  simp only at hp ht
  cases hp
  cases ht
  exact ⟨are_duplicates_proj p1 t1 f1 f2 r1 r2,
    deduplicate_company_proj p1 t1 f1 f2 db cid⟩

/-- Witness for C9: the default configuration and the same configuration
with the fuzzy flag off agree on the chain scenario. -/
theorem fuzzy_flag_noop_witness :
    (defaultDedup.date_proximity_days =
        (⟨90, 1/10, false⟩ : DeduplicatorV2).date_proximity_days) ∧
    (defaultDedup.amount_similarity_threshold =
        (⟨90, 1/10, false⟩ : DeduplicatorV2).amount_similarity_threshold) ∧
    (are_duplicates defaultDedup (chainDB.rounds.get ⟨0, by decide⟩)
        (chainDB.rounds.get ⟨1, by decide⟩) =
      are_duplicates ⟨90, 1/10, false⟩ (chainDB.rounds.get ⟨0, by decide⟩)
        (chainDB.rounds.get ⟨1, by decide⟩) ∧
    deduplicate_company defaultDedup chainDB 1 =
      deduplicate_company ⟨90, 1/10, false⟩ chainDB 1) :=
  ⟨rfl, rfl,
   fuzzy_flag_noop defaultDedup ⟨90, 1/10, false⟩ rfl rfl
     (chainDB.rounds.get ⟨0, by decide⟩) (chainDB.rounds.get ⟨1, by decide⟩)
     chainDB 1⟩

/-! ## Reference invariant after a pass (C4) -/

/-- Some round in `rounds` carries the id and company of `x` (its
possibly-updated copy). -/
def keyIn (x : FundingRound) (rounds : List FundingRound) : Prop :=
  ∃ t ∈ rounds, t.id = x.id ∧ t.company_id = x.company_id

/-- Every demoted round references the id of some round of the table
belonging to the same company (without requiring the target to be a
survivor). -/
def RefInv (rounds : List FundingRound) : Prop :=
  ∀ r ∈ rounds, r.is_duplicate = true →
    ∃ t ∈ rounds, r.duplicate_of_id = some t.id ∧ t.company_id = r.company_id

lemma mark_map_id (rounds : List FundingRound) (lid wid : Nat) :
    (mark_as_duplicate rounds lid wid).map (fun r => r.id) =
      rounds.map (fun r => r.id) := by
  unfold mark_as_duplicate
  rw [List.map_map]
  apply List.map_congr_left
  intro x _
  by_cases h : x.id = lid <;> simp [h]

lemma mark_keyIn (rounds : List FundingRound) (lid wid : Nat)
    (x : FundingRound) (h : keyIn x rounds) :
    keyIn x (mark_as_duplicate rounds lid wid) := by
  obtain ⟨t, ht, hid, hc⟩ := h
  refine ⟨_, List.mem_map_of_mem _ ht, ?_, ?_⟩
  · by_cases hl : t.id = lid
    · rw [if_pos hl]
      exact hid
    · rw [if_neg hl]
      exact hid
  · by_cases hl : t.id = lid
    · rw [if_pos hl]
      exact hc
    · rw [if_neg hl]
      exact hc

lemma mark_refInv (rounds : List FundingRound) (w l : FundingRound)
    (hnd : (rounds.map (fun r => r.id)).Nodup)
    (hw : keyIn w rounds) (hl : keyIn l rounds)
    (hcomp : l.company_id = w.company_id) (hinv : RefInv rounds) :
    RefInv (mark_as_duplicate rounds l.id w.id) := by
  intro r hr hdup
  rcases List.mem_map.mp hr with ⟨x, hx, rfl⟩
  by_cases hxl : x.id = l.id
  · obtain ⟨tl, htl, htlid, htlc⟩ := hl
    obtain ⟨tw, htw, htwid, htwc⟩ := hw
    have hxtl : x = tl :=
      List.inj_on_of_nodup_map hnd hx htl (by rw [hxl, htlid])
    have hxc : x.company_id = w.company_id := by
      rw [hxtl, htlc, hcomp]
    refine ⟨_, List.mem_map_of_mem _ htw, ?_, ?_⟩
    · rw [if_pos hxl]
      by_cases hwl : tw.id = l.id
      · rw [if_pos hwl]
        show some w.id = some tw.id
        rw [htwid]
      · rw [if_neg hwl]
        show some w.id = some tw.id
        rw [htwid]
    · rw [if_pos hxl]
      by_cases hwl : tw.id = l.id
      · rw [if_pos hwl]
        show tw.company_id = x.company_id
        rw [htwc, hxc]
      · rw [if_neg hwl]
        show tw.company_id = x.company_id
        rw [htwc, hxc]
  · rw [if_neg hxl]
    rw [if_neg hxl] at hdup
    obtain ⟨t, ht, htid, htc⟩ := hinv x hx hdup
    refine ⟨_, List.mem_map_of_mem _ ht, ?_, ?_⟩
    · by_cases htl2 : t.id = l.id
      · rw [if_pos htl2]
        exact htid
      · rw [if_neg htl2]
        exact htid
    · by_cases htl2 : t.id = l.id
      · rw [if_pos htl2]
        exact htc
      · rw [if_neg htl2]
        exact htc

lemma are_duplicates_company (dd : DeduplicatorV2) (r1 r2 : FundingRound)
    (h : are_duplicates dd r1 r2 = true) : r1.company_id = r2.company_id := by
  by_contra hc
  rw [are_duplicates, if_pos hc] at h
  exact Bool.false_ne_true h

lemma pairStep_map_id (dd : DeduplicatorV2) (r1 r2 : FundingRound)
    (rounds : List FundingRound) :
    (pairStep dd r1 r2 rounds).1.map (fun r => r.id) =
      rounds.map (fun r => r.id) := by
  unfold pairStep
  split
  · split
    · exact mark_map_id rounds r2.id r1.id
    · split
      · exact mark_map_id rounds r1.id r2.id
      · split
        · exact mark_map_id rounds r2.id r1.id
        · exact mark_map_id rounds r1.id r2.id
  · rfl

lemma pairStep_keyIn (dd : DeduplicatorV2) (r1 r2 : FundingRound)
    (rounds : List FundingRound) (x : FundingRound) (h : keyIn x rounds) :
    keyIn x (pairStep dd r1 r2 rounds).1 := by
  unfold pairStep
  split
  · split
    · exact mark_keyIn rounds r2.id r1.id x h
    · split
      · exact mark_keyIn rounds r1.id r2.id x h
      · split
        · exact mark_keyIn rounds r2.id r1.id x h
        · exact mark_keyIn rounds r1.id r2.id x h
  · exact h

lemma pairStep_refInv (dd : DeduplicatorV2) (r1 r2 : FundingRound)
    (rounds : List FundingRound)
    (hnd : (rounds.map (fun r => r.id)).Nodup)
    (h1 : keyIn r1 rounds) (h2 : keyIn r2 rounds) (hinv : RefInv rounds) :
    RefInv (pairStep dd r1 r2 rounds).1 := by
  unfold pairStep
  split
  · rename_i hdup
    have hc := are_duplicates_company dd r1 r2 hdup
    split
    · exact mark_refInv rounds r1 r2 hnd h1 h2 hc.symm hinv
    · split
      · exact mark_refInv rounds r2 r1 hnd h2 h1 hc hinv
      · split
        · exact mark_refInv rounds r1 r2 hnd h1 h2 hc.symm hinv
        · exact mark_refInv rounds r2 r1 hnd h2 h1 hc hinv
  · exact hinv

lemma runPairs_refInv (dd : DeduplicatorV2)
    (ps : List (FundingRound × FundingRound)) :
    ∀ (rounds : List FundingRound) (acc : Nat),
      (rounds.map (fun r => r.id)).Nodup →
      (∀ p ∈ ps, keyIn p.1 rounds ∧ keyIn p.2 rounds) →
      RefInv rounds →
      RefInv (runPairs dd ps rounds acc).1 := by
  induction ps with
  | nil => intro rounds acc _ _ hinv; exact hinv
  | cons pr rest ih =>
    intro rounds acc hnd hkey hinv
    obtain ⟨r1, r2⟩ := pr
    simp only [runPairs]
    have hk1 := (hkey (r1, r2) (List.mem_cons_self _ _)).1
    have hk2 := (hkey (r1, r2) (List.mem_cons_self _ _)).2
    apply ih
    · rw [pairStep_map_id]
      exact hnd
    · intro p hp
      exact ⟨pairStep_keyIn dd r1 r2 rounds p.1 (hkey p (List.mem_cons_of_mem _ hp)).1,
        pairStep_keyIn dd r1 r2 rounds p.2 (hkey p (List.mem_cons_of_mem _ hp)).2⟩
    · exact pairStep_refInv dd r1 r2 rounds hnd hk1 hk2 hinv

lemma pairsOf_mem {α : Type} (l : List α) :
    ∀ p ∈ pairsOf l, p.1 ∈ l ∧ p.2 ∈ l := by
  induction l with
  | nil => intro p hp; cases hp
  | cons x xs ih =>
    intro p hp
    rcases List.mem_append.mp hp with h | h
    · rcases List.mem_map.mp h with ⟨y, hy, rfl⟩
      exact ⟨List.mem_cons_self _ _, List.mem_cons_of_mem _ hy⟩
    · obtain ⟨h1, h2⟩ := ih p h
      exact ⟨List.mem_cons_of_mem _ h1, List.mem_cons_of_mem _ h2⟩

/-- C4 counterexample: in the chain scenario, after `deduplicate_company`
a demoted round (id 2) references round 1, which is itself demoted — the
claimed depth-1 property fails. -/
theorem dedup_refs_depth_one_cx :
    ¬ (∀ r ∈ (deduplicate_company defaultDedup chainDB 1).2.rounds,
        r.is_duplicate = true →
        ∀ t ∈ (deduplicate_company defaultDedup chainDB 1).2.rounds,
          r.duplicate_of_id = some t.id → t.is_duplicate = false) := by
  decide

/-- C4 amended: after a run on a company whose rounds all start
non-duplicate (and whose ids are distinct), the reference of every
demoted round points to a round of the same company present in the table —
but that target may itself be demoted, so the reference graph can have
depth greater than one. -/
theorem dedup_refs_same_company (dd : DeduplicatorV2) (db : DB) (cid : Nat)
    (hnd : (db.rounds.map (fun r => r.id)).Nodup)
    (h0 : ∀ r ∈ db.rounds, r.is_duplicate = false) :
    ∀ r ∈ (deduplicate_company dd db cid).2.rounds, r.is_duplicate = true →
      ∃ t ∈ (deduplicate_company dd db cid).2.rounds,
        r.duplicate_of_id = some t.id ∧ t.company_id = r.company_id := by
  have hinv : RefInv db.rounds := by
    intro r hr hdup
    rw [h0 r hr] at hdup
    cases hdup
  unfold deduplicate_company
  by_cases h : getStage4 db cid
  · rw [if_pos h]
    exact hinv
  · rw [if_neg h]
    by_cases h2 :
      (db.rounds.filter (fun r => r.company_id = cid && !r.is_duplicate)).length ≤ 1
    · rw [if_pos h2]
      exact hinv
    · rw [if_neg h2]
      apply runPairs_refInv dd _ db.rounds 0 hnd _ hinv
      intro p hp
      have hm := pairsOf_mem _ p hp
      have hsub := fun (x : FundingRound)
          (hx : x ∈ db.rounds.filter (fun r => r.company_id = cid && !r.is_duplicate)) =>
        List.mem_of_mem_filter hx
      exact ⟨⟨p.1, hsub p.1 hm.1, rfl, rfl⟩, ⟨p.2, hsub p.2 hm.2, rfl, rfl⟩⟩

/-- Witness for C4 amended at the chain scenario. -/
theorem dedup_refs_same_company_witness :
    (chainDB.rounds.map (fun r => r.id)).Nodup ∧
    (∀ r ∈ chainDB.rounds, r.is_duplicate = false) ∧
    (∀ r ∈ (deduplicate_company defaultDedup chainDB 1).2.rounds,
      r.is_duplicate = true →
      ∃ t ∈ (deduplicate_company defaultDedup chainDB 1).2.rounds,
        r.duplicate_of_id = some t.id ∧ t.company_id = r.company_id) :=
  ⟨by decide, by decide,
   dedup_refs_same_company defaultDedup chainDB 1 (by decide) (by decide)⟩

/-! ## Three-way cluster (C5) -/

lemma pairStep_equal_conf (dd : DeduplicatorV2) (r1 r2 : FundingRound)
    (rounds : List FundingRound)
    (hdup : are_duplicates dd r1 r2 = true)
    (hconf : r1.confidence_score = r2.confidence_score) :
    pairStep dd r1 r2 rounds =
      if completeness r1 ≥ completeness r2
      then (mark_as_duplicate rounds r2.id r1.id, 1)
      else (mark_as_duplicate rounds r1.id r2.id, 1) := by
  unfold pairStep
  rw [if_pos hdup,
    if_neg (show ¬ (r1.confidence_score = "HIGH" ∧ r2.confidence_score ≠ "HIGH")
      from fun h => h.2 (hconf.symm.trans h.1)),
    if_neg (show ¬ (r2.confidence_score = "HIGH" ∧ r1.confidence_score ≠ "HIGH")
      from fun h => h.2 (hconf.trans h.1))]

/-- C5 counterexample: on the Gamma scenario (three mutually-duplicate
rounds, equal confidence, completeness 2, 3, 1), the returned duplicate
count is 3, not 2, because the pair loop also counts the re-demotion of
an already-demoted record. -/
theorem three_way_cluster_cx :
    (deduplicate_company defaultDedup gammaDB 7).1 = 3 ∧
    (deduplicate_company defaultDedup gammaDB 7).1 ≠ 2 := by
  decide

/-- C5 amended: for a fresh company with exactly three mutually-duplicate
records of equal confidence and completeness scores 2, 3, 1 in load
order (distinct ids), `deduplicate_company` ends with exactly one
non-duplicate record, the completeness of that survivor is the maximum (3),
and the returned duplicate count equals 3 (each duplicate pair is
counted, including re-demotions of an already-demoted record). -/
theorem three_way_cluster (dd : DeduplicatorV2) (db : DB) (cid : Nat)
    (a b c : FundingRound)
    (hr : db.rounds = [a, b, c])
    (hflag : getStage4 db cid = false)
    (hca : a.company_id = cid) (hcb : b.company_id = cid)
    (hcc : c.company_id = cid)
    (hda : a.is_duplicate = false) (hdb : b.is_duplicate = false)
    (hdc : c.is_duplicate = false)
    (hab : a.id ≠ b.id) (hac : a.id ≠ c.id) (hbc : b.id ≠ c.id)
    (dab : are_duplicates dd a b = true)
    (dac : are_duplicates dd a c = true)
    (dbc : are_duplicates dd b c = true)
    (cfab : a.confidence_score = b.confidence_score)
    (cfbc : b.confidence_score = c.confidence_score)
    (cpa : completeness a = 2) (cpb : completeness b = 3)
    (cpc : completeness c = 1) :
    (deduplicate_company dd db cid).1 = 3 ∧
    ((deduplicate_company dd db cid).2.rounds.filter
        (fun r => !r.is_duplicate)).length = 1 ∧
    ∀ r ∈ (deduplicate_company dd db cid).2.rounds,
      r.is_duplicate = false → completeness r = 3 := by
  have cfac : a.confidence_score = c.confidence_score := cfab.trans cfbc
  have hs1 : pairStep dd a b [a, b, c] =
      (mark_as_duplicate [a, b, c] a.id b.id, 1) := by
    rw [pairStep_equal_conf dd a b _ dab cfab, if_neg]
    rw [cpa, cpb]
    decide
  have hm1 : mark_as_duplicate [a, b, c] a.id b.id =
      [{ a with is_duplicate := true, duplicate_of_id := some b.id }, b, c] := by
    simp [mark_as_duplicate, Ne.symm hab, Ne.symm hac]
  have hs2 : pairStep dd a c
      [{ a with is_duplicate := true, duplicate_of_id := some b.id }, b, c] =
      (mark_as_duplicate
        [{ a with is_duplicate := true, duplicate_of_id := some b.id }, b, c]
        c.id a.id, 1) := by
    rw [pairStep_equal_conf dd a c _ dac cfac, if_pos]
    rw [cpa, cpc]
    decide
  have hm2 : mark_as_duplicate
      [{ a with is_duplicate := true, duplicate_of_id := some b.id }, b, c]
      c.id a.id =
      [{ a with is_duplicate := true, duplicate_of_id := some b.id }, b,
       { c with is_duplicate := true, duplicate_of_id := some a.id }] := by
    simp [mark_as_duplicate, hac, hbc]
  have hs3 : pairStep dd b c
      [{ a with is_duplicate := true, duplicate_of_id := some b.id }, b,
       { c with is_duplicate := true, duplicate_of_id := some a.id }] =
      (mark_as_duplicate
        [{ a with is_duplicate := true, duplicate_of_id := some b.id }, b,
         { c with is_duplicate := true, duplicate_of_id := some a.id }]
        c.id b.id, 1) := by
    rw [pairStep_equal_conf dd b c _ dbc cfbc, if_pos]
    rw [cpb, cpc]
    decide
  have hm3 : mark_as_duplicate
      [{ a with is_duplicate := true, duplicate_of_id := some b.id }, b,
       { c with is_duplicate := true, duplicate_of_id := some a.id }]
      c.id b.id =
      [{ a with is_duplicate := true, duplicate_of_id := some b.id }, b,
       { c with is_duplicate := true, duplicate_of_id := some b.id }] := by
    simp [mark_as_duplicate, hac, hbc]
  have hrun : runPairs dd [(a, b), (a, c), (b, c)] [a, b, c] 0 =
      ([{ a with is_duplicate := true, duplicate_of_id := some b.id }, b,
        { c with is_duplicate := true, duplicate_of_id := some b.id }], 3) := by
    simp only [runPairs, hs1, hm1, hs2, hm2, hs3, hm3]
  have hfilter : List.filter (fun r => r.company_id = cid && !r.is_duplicate)
      [a, b, c] = [a, b, c] := by
    simp [List.filter_cons, hca, hcb, hcc, hda, hdb, hdc]
  have hpairs : pairsOf [a, b, c] = [(a, b), (a, c), (b, c)] := rfl
  have hfilter2 : List.filter (fun r => r.company_id = cid && !r.is_duplicate)
      [{ a with is_duplicate := true, duplicate_of_id := some b.id }, b,
       { c with is_duplicate := true, duplicate_of_id := some b.id }] = [b] := by
    simp [List.filter_cons, hcb, hdb]
  have hdcmp : deduplicate_company dd db cid =
      (3, update_stage4_status
        { db with rounds :=
            [{ a with is_duplicate := true, duplicate_of_id := some b.id }, b,
             { c with is_duplicate := true, duplicate_of_id := some b.id }] }
        cid 1) := by
    unfold deduplicate_company
    dsimp only
    rw [hflag, if_neg Bool.false_ne_true, hr, hfilter,
      if_neg (show ¬ ([a, b, c] : List FundingRound).length ≤ 1 by simp),
      hpairs, hrun, hfilter2]
    rfl
  refine ⟨?_, ?_, ?_⟩
  · rw [hdcmp]
  · rw [hdcmp]
    simp [update_stage4_status, List.filter_cons, hdb]
  · rw [hdcmp]
    intro r hrm hfalse
    simp only [update_stage4_status, List.mem_cons, List.not_mem_nil,
      or_false] at hrm
    rcases hrm with rfl | rfl | rfl
    · exact absurd hfalse (by simp)
    · exact cpb
    · exact absurd hfalse (by simp)

/-- Witness for C5 amended at the Gamma scenario. -/
theorem three_way_cluster_witness :
    (gammaDB.rounds = [gammaDB.rounds.get ⟨0, by decide⟩,
        gammaDB.rounds.get ⟨1, by decide⟩, gammaDB.rounds.get ⟨2, by decide⟩]) ∧
    ((deduplicate_company defaultDedup gammaDB 7).1 = 3 ∧
     ((deduplicate_company defaultDedup gammaDB 7).2.rounds.filter
        (fun r => !r.is_duplicate)).length = 1 ∧
     ∀ r ∈ (deduplicate_company defaultDedup gammaDB 7).2.rounds,
       r.is_duplicate = false → completeness r = 3) :=
  ⟨rfl,
   three_way_cluster defaultDedup gammaDB 7 _ _ _ rfl (by decide)
     (by decide) (by decide) (by decide) (by decide) (by decide) (by decide)
     (by decide) (by decide) (by decide) (by decide) (by decide) (by decide)
     (by decide) (by decide) (by decide) (by decide) (by decide)⟩

/-! ## Aggregate statistics (C6) -/

/-- Percentage-rate scenario: one company with two duplicate rounds, with
no amounts so every step evaluates by computation. -/
def rateDB : DB :=
  { rounds :=
      [{ blankRound with
           id := 1, company_id := 1,
           round_name := some "Series A", date := some "2021-05-01",
           confidence_score := "HIGH" },
       { blankRound with
           id := 2, company_id := 1,
           round_name := some "Series A", date := some "2021-05-10" }],
    merged := [], uniqueCounts := [] }

lemma mem_distinctAux (a : Nat) :
    ∀ (l seen : List Nat), a ∈ distinctAux seen l ↔ (a ∈ l ∧ a ∉ seen) := by
  intro l
  induction l with
  | nil => intro seen; simp [distinctAux]
  | cons x xs ih =>
    intro seen
    by_cases hx : seen.contains x
    · have hxs : x ∈ seen := by
        simpa [List.elem_iff] using hx
      rw [distinctAux, if_pos hx, ih seen]
      constructor
      · rintro ⟨h1, h2⟩
        exact ⟨List.mem_cons_of_mem _ h1, h2⟩
      · rintro ⟨h1, h2⟩
        rcases List.mem_cons.mp h1 with rfl | h1
        · exact absurd hxs h2
        · exact ⟨h1, h2⟩
    · rw [distinctAux, if_neg hx]
      constructor
      · intro h
        rcases List.mem_cons.mp h with rfl | h
        · refine ⟨List.mem_cons_self _ _, ?_⟩
          intro hin
          exact hx (by simpa [List.elem_iff] using hin)
        · obtain ⟨h1, h2⟩ := (ih (x :: seen)).mp h
          refine ⟨List.mem_cons_of_mem _ h1, ?_⟩
          intro hin
          exact h2 (List.mem_cons_of_mem _ hin)
      · rintro ⟨h1, h2⟩
        rcases List.mem_cons.mp h1 with rfl | h1
        · exact List.mem_cons_self _ _
        · by_cases hax : a = x
          · subst hax
            exact List.mem_cons_self _ _
          · refine List.mem_cons_of_mem _ ((ih (x :: seen)).mpr ⟨h1, ?_⟩)
            intro hin
            rcases List.mem_cons.mp hin with h | h
            · exact hax h
            · exact h2 h

lemma nodup_distinctAux : ∀ (l seen : List Nat), (distinctAux seen l).Nodup := by
  intro l
  induction l with
  | nil => intro seen; simp [distinctAux]
  | cons x xs ih =>
    intro seen
    by_cases hx : seen.contains x
    · rw [distinctAux, if_pos hx]
      exact ih seen
    · rw [distinctAux, if_neg hx]
      refine List.Nodup.cons ?_ (ih (x :: seen))
      intro hmem
      exact ((mem_distinctAux x xs (x :: seen)).mp hmem).2 (List.mem_cons_self _ _)

lemma length_distinctL (l : List Nat) : (distinctL l).length = l.toFinset.card := by
  have hmem : ∀ a, a ∈ distinctL l ↔ a ∈ l := by
    intro a
    rw [distinctL, mem_distinctAux]
    simp
  have hset : (distinctL l).toFinset = l.toFinset := by
    apply Finset.ext
    intro a
    simp [List.mem_toFinset, hmem]
  rw [← hset]
  exact (List.toFinset_card_of_nodup
    (show (distinctL l).Nodup from nodup_distinctAux l [])).symm

lemma dedupLoop_eq_perCompany (dd : DeduplicatorV2) (cids : List Nat) :
    ∀ (acc : Nat) (db : DB),
      (dedupLoop dd cids acc db).1 = acc + (perCompanyCounts dd db cids).1.sum ∧
      (dedupLoop dd cids acc db).2 = (perCompanyCounts dd db cids).2 := by
  induction cids with
  | nil => intro acc db; simp [dedupLoop, perCompanyCounts]
  | cons cid rest ih =>
    intro acc db
    rw [dedupLoop, perCompanyCounts]
    refine ⟨?_, (ih _ _).2⟩
    rw [(ih _ _).1, List.sum_cons]
    omega

/-- C6 counterexample: on the rate scenario, `deduplication_rate` is 50,
not `duplicates_removed / total_rounds = 1/2`: the code multiplies the
ratio by 100. -/
theorem dedup_all_rate_cx :
    (deduplicate_all defaultDedup rateDB).1.deduplication_rate ≠
      ((deduplicate_all defaultDedup rateDB).1.duplicates_removed : ℚ) /
        ((deduplicate_all defaultDedup rateDB).1.total_rounds : ℚ) := by
  have hloop : dedupLoop defaultDedup
      (distinctL (rateDB.rounds.map (fun r => r.company_id))) 0 rateDB =
      (1, { rounds :=
              [{ blankRound with
                   id := 1, company_id := 1,
                   round_name := some "Series A", date := some "2021-05-01",
                   confidence_score := "HIGH" },
               { blankRound with
                   id := 2, company_id := 1,
                   round_name := some "Series A", date := some "2021-05-10",
                   is_duplicate := true, duplicate_of_id := some 1 }],
            merged := [1], uniqueCounts := [(1, 1)] }) := by
    decide
  unfold deduplicate_all
  dsimp only
  rw [hloop]
  norm_num

/-- C6 amended: the statistics of `deduplicate_all` are as claimed —
distinct-company count, total and unique round counts, duplicates as the
sum of the per-company counts — except that the rate is the percentage
`duplicates_removed / total_rounds * 100` (still 0 when there are no
rounds). -/
theorem dedup_all_stats (dd : DeduplicatorV2) (db : DB) :
    (deduplicate_all dd db).1.total_companies =
      (db.rounds.map (fun r => r.company_id)).toFinset.card ∧
    (deduplicate_all dd db).1.total_rounds =
      (deduplicate_all dd db).2.rounds.length ∧
    (deduplicate_all dd db).1.unique_rounds =
      ((deduplicate_all dd db).2.rounds.filter (fun r => !r.is_duplicate)).length ∧
    (deduplicate_all dd db).1.duplicates_removed =
      (perCompanyCounts dd db
        (distinctL (db.rounds.map (fun r => r.company_id)))).1.sum ∧
    (deduplicate_all dd db).1.deduplication_rate =
      (if (deduplicate_all dd db).1.total_rounds = 0 then 0
       else ((deduplicate_all dd db).1.duplicates_removed : ℚ) /
         ((deduplicate_all dd db).1.total_rounds : ℚ) * 100) := by
  unfold deduplicate_all
  dsimp only
  refine ⟨length_distinctL _, rfl, rfl, ?_, ?_⟩
  · rw [(dedupLoop_eq_perCompany dd _ 0 db).1]
    omega
  · by_cases ht : (dedupLoop dd
        (distinctL (db.rounds.map (fun r => r.company_id))) 0 db).2.rounds.length = 0
    · rw [if_pos ht, if_neg (by omega)]
    · rw [if_neg ht, if_pos (Nat.pos_of_ne_zero ht)]

end FundingRounds
